import Mathlib

/- Verification development for the Summit Picarro calibration pipeline
(`processors/summit_picarro_processor/summit_picarro.py` and
`picarro_main_loop.py`).

Timestamps are modelled as whole seconds (`Int`), measurement values as exact
rationals (`ℚ`).  Python code that can raise an exception is modelled with
`Except String`; Python's `float` true division raises `ZeroDivisionError`
on a zero denominator, which the embedding makes explicit. -/

deriving instance DecidableEq for Except

namespace SummitPicarro

/- ---------------------------------------------------------------------------
Data model.
--------------------------------------------------------------------------- -/

/-- One row of 5-second data (`Datum` in `summit_picarro.py`), restricted to
the fields the studied behaviour depends on: the timestamp, the multi-port
valve position (`mpv_position`: 0 = no sequence, 1 = ambient, 2 = low_std,
3 = high_std, 4 = mid_std) and the instrument status code (963 = good data,
999 = filtered). -/
structure Datum where
  date : Int
  mpv_position : Nat
  instrument_status : Int
deriving DecidableEq

/-- A calibration event as the matcher sees it (`CalEvent` in
`summit_picarro.py`): its id, the timestamp of its first member Datum,
its `date` (the timestamp of its last member Datum), the standard category
string, and the optional link to a MasterCal. -/
structure CalEv where
  id : Nat
  date_first : Int
  date : Int
  standard_used : String
  mastercal_id : Option Nat
deriving DecidableEq

/-- A (low, high, mid) triple forming a `MasterCal`'s subcals, in the order
`create_mastercals` builds the list `[lowcal, matching_high, matching_mid]`. -/
structure Triple where
  low : CalEv
  high : CalEv
  mid : CalEv
deriving DecidableEq

/- ---------------------------------------------------------------------------
Calibration segmentation: `find_cal_indices` (summit_picarro.py:280) and the
event-building loop of `find_cal_events` (picarro_main_loop.py:155).
--------------------------------------------------------------------------- -/

/-- Embedding of `find_cal_indices`: `datetimes.diff()` places at position `i`
the gap `dates[i] - dates[i-1]` (position 0 holds NaT, which compares false),
and the returned indices are those whose gap strictly exceeds 60 seconds. -/
def find_cal_indices (dates : List Int) : List Nat :=
  (List.range dates.length).filter
    (fun i => decide (0 < i) && decide (dates.getD (i - 1) 0 + 60 < dates.getD i 0))

/-- Embedding of the per-standard event-building loop of `find_cal_events`
(picarro_main_loop.py:155-173), applied to the sorted timestamps of the
not-yet-event-linked Datums of one standard category.  If `indices` is empty
the loop is skipped (`continue`), producing no events.  Otherwise, for each
`(num, ind)` of `enumerate(indices)` the slice `data[prev_ind:ind]` becomes an
event, and the source's trailing branch `if num == len(indices)` (meant to
emit the final run `data[ind:]`) is kept exactly as written. -/
def find_cal_events_runs (dates : List Int) : List (List Int) :=
  let indices := find_cal_indices dates
  if indices.length = 0 then []
  else
    (indices.enum.foldl
      (fun (st : Nat × List (List Int)) (p : Nat × Nat) =>
        let num := p.1
        let ind := p.2
        let evs := st.2 ++ [(dates.drop st.1).take (ind - st.1)]
        let evs2 := if num = indices.length then evs ++ [dates.drop ind] else evs
        (ind, evs2))
      (0, [])).2

/-- Helper for `maximal_runs`: accumulates the current run (in reverse) while
scanning the remaining dates, starting a new run at every gap over 60 s. -/
def maximal_runs_aux : List Int → Int → List Int → List (List Int)
  | [], _, cur => [cur.reverse]
  | d :: ds, prev, cur =>
    if prev + 60 < d then cur.reverse :: maximal_runs_aux ds d [d]
    else maximal_runs_aux ds d (d :: cur)

/-- The segmentation the spec describes (§4.3): the maximal runs of the sorted
timestamps, where a new run begins exactly when the gap between consecutive
timestamps exceeds 60 seconds.  Stated from the spec's words, for comparison
with `find_cal_events_runs`. -/
def maximal_runs (dates : List Int) : List (List Int) :=
  match dates with
  | [] => []
  | d :: ds => maximal_runs_aux ds d [d]

/-- C1: the claim fails on the code.  On timestamps 0 s, 45 s, 200 s the
maximal runs are `[0,45]` and `[200]`, but the event loop only ever emits the
slices `data[prev_ind:ind]`: the guard `num == len(indices)` of the
final-run branch is never satisfied by `enumerate`, so the run `[200]` after
the last break never becomes a candidate event; and with no break at all
(timestamps 0 s, 45 s) the loop is skipped and the sole run `[0,45]` becomes
no event either. -/
theorem find_cal_events_drops_final_run :
    find_cal_events_runs [0, 45, 200] = [[0, 45]] ∧
    maximal_runs [0, 45, 200] = [[0, 45], [200]] ∧
    find_cal_events_runs [0, 45] = [] ∧
    maximal_runs [0, 45] = [[0, 45]] := by
  decide

/- ---------------------------------------------------------------------------
Result quantification: `CalEvent.calc_result` (summit_picarro.py:139-177),
with `statistics.mean`, `statistics.median` and `statistics.stdev`.
--------------------------------------------------------------------------- -/

/-- The per-compound result dictionary `{'mean': x, 'median': x, 'stdev': x}`.
The sample standard deviation is carried as its square `svar` (the sample
variance), keeping the embedding in exact rational arithmetic;
`statistics.stdev` is the square root of `svar`. -/
structure CalResult where
  mean : ℚ
  median : ℚ
  svar : ℚ
deriving DecidableEq

/-- Embedding of `statistics.mean`: raises on an empty list. -/
def s_mean (xs : List ℚ) : Except String ℚ :=
  if xs.length = 0 then Except.error "StatisticsError: mean requires at least one data point"
  else Except.ok (xs.sum / xs.length)

/-- Insertion of one element into an ascending list, for `s_median`. -/
def insertAsc (x : ℚ) : List ℚ → List ℚ
  | [] => [x]
  | y :: ys => if x ≤ y then x :: y :: ys else y :: insertAsc x ys

/-- Ascending insertion sort, modelling Python's `sorted`. -/
def sortAsc (xs : List ℚ) : List ℚ :=
  xs.foldr insertAsc []

/-- Embedding of `statistics.median`: sorts the data; for an odd count the
middle element, for an even count the average of the two middle elements;
raises on an empty list. -/
def s_median (xs : List ℚ) : Except String ℚ :=
  let n := xs.length
  if n = 0 then Except.error "StatisticsError: no median for empty data"
  else
    let srt := sortAsc xs
    if n % 2 = 1 then Except.ok (srt.getD (n / 2) 0)
    else Except.ok ((srt.getD (n / 2 - 1) 0 + srt.getD (n / 2) 0) / 2)

/-- Embedding of `statistics.stdev`, represented by its square (the sample
variance): raises unless there are at least two data points. -/
def s_variance (xs : List ℚ) : Except String ℚ :=
  if xs.length < 2 then Except.error "StatisticsError: stdev requires at least two data points"
  else
    let m := xs.sum / xs.length
    Except.ok ((xs.map (fun x => (x - m) ^ 2)).sum / ((xs.length : ℚ) - 1))

/-- Embedding of the inner helper `find_ind` of `calc_result`: scans the
(sorted, increasing) dates and, at the first date strictly after the cutoff,
returns that position minus one; `None` when no date exceeds the cutoff.
The source's docstring says it returns the "index where dates are greater
than cutoff", but the code returns `ind - 1`. -/
def find_ind_aux : List Int → Int → Nat → Option Int
  | [], _, _ => none
  | d :: ds, cutoff, ind =>
    if cutoff < d then some ((ind : Int) - 1) else find_ind_aux ds cutoff (ind + 1)

/-- Entry point of `find_ind`, starting `enumerate` at 0. -/
def find_ind (dates : List Int) (cutoff : Int) : Option Int :=
  find_ind_aux dates cutoff 0

/-- Python's slice `xs[i:]` for a possibly negative `Int` index: a negative
index counts from the end (clamped at the start of the list). -/
def pySliceFrom (xs : List ℚ) (i : Int) : List ℚ :=
  if 0 ≤ i then xs.drop i.toNat
  else xs.drop ((xs.length : Int) + i).toNat

/-- Embedding of `CalEvent.calc_result` for one compound: the event date is
the last timestamp, the cutoff is `date - back_period`, the data used is
`compound_data[ind:]` with `ind = find_ind(dates, cutoff)`, and the result
dictionary is built by evaluating `s.mean`, `s.median`, `s.stdev` in that
order (the first exception propagating); when `find_ind` returns `None` the
result fields are set to `None`, modelled as `Except.ok none`. -/
def calc_result (dates : List Int) (values : List ℚ) (back_period : Int) :
    Except String (Option CalResult) :=
  let cutoff := dates.getLastD 0 - back_period
  match find_ind dates cutoff with
  | some ind =>
    let data_to_use := pySliceFrom values ind
    match s_mean data_to_use, s_median data_to_use, s_variance data_to_use with
    | Except.ok m, Except.ok md, Except.ok v => Except.ok (some ⟨m, md, v⟩)
    | Except.error e, _, _ => Except.error e
    | _, Except.error e, _ => Except.error e
    | _, _, Except.error e => Except.error e
  | none => Except.ok none

/-- The sub-run the spec describes (§4.3): the values whose timestamp is
strictly greater than the cutoff.  Stated from the spec's words, for
comparison with what `calc_result` actually slices. -/
def strictly_after_subrun (dates : List Int) (values : List ℚ) (cutoff : Int) : List ℚ :=
  ((dates.zip values).filter (fun p => decide (cutoff < p.1))).map (fun p => p.2)

/-- C2: the claim fails on the code.  For an event with timestamps
0, 100, 110, 115, 120 s and values 10, 20, 30, 40, 50 and a 21-second window,
the cutoff is 99 s and the spec's sub-run is `[20, 30, 40, 50]` (mean 35);
but `find_ind` returns the first strictly-after index minus one, so
`calc_result` averages all five values including the value 10 taken at
timestamp 0 ≤ cutoff, yielding mean 30 (median 30, sample variance 250). -/
theorem calc_result_includes_before_cutoff :
    calc_result [0, 100, 110, 115, 120] [10, 20, 30, 40, 50] 21 =
      Except.ok (some ⟨30, 30, 250⟩) ∧
    strictly_after_subrun [0, 100, 110, 115, 120] [10, 20, 30, 40, 50] 99 =
      [20, 30, 40, 50] ∧
    s_mean [20, 30, 40, 50] = Except.ok 35 := by
  refine ⟨?_, by decide, ?_⟩
  · have h1 : find_ind [0, 100, 110, 115, 120] (List.getLastD [0, 100, 110, 115, 120] 0 - 21) =
        some 0 := by decide
    simp only [calc_result, h1]
    norm_num [pySliceFrom, s_mean, s_median, s_variance, sortAsc, insertAsc]
  · norm_num [s_mean]

/-- C10: whenever the slice `compound_data[ind:]` selected by `calc_result`
holds exactly one measurement — as happens for a single-Datum event, or
whenever the first timestamp already exceeds the cutoff so that
`find_ind` returns −1 and the Python slice `[-1:]` keeps only the final
measurement — `statistics.stdev` raises (it needs at least two data points),
so `calc_result` raises instead of producing a result or unset fields. -/
theorem calc_result_single_point_raises (dates : List Int) (values : List ℚ)
    (back_period : Int) (i : Int)
    (h1 : find_ind dates (dates.getLastD 0 - back_period) = some i)
    (h2 : (pySliceFrom values i).length = 1) :
    calc_result dates values back_period =
      Except.error "StatisticsError: stdev requires at least two data points" := by
  obtain ⟨x, hx⟩ := List.length_eq_one.mp h2
  simp only [calc_result, h1, hx, s_mean, s_median, s_variance, sortAsc, insertAsc]
  norm_num

/-- Witness for C10 at a concrete input: a calibration event holding the single
Datum at 0 s with value 5, quantified with the 21-second window. -/
theorem calc_result_single_point_raises_witness :
    find_ind [0] (List.getLastD [0] 0 - 21) = some (-1) ∧
    (pySliceFrom [5] (-1)).length = 1 ∧
    calc_result [0] [5] 21 =
      Except.error "StatisticsError: stdev requires at least two data points" :=
  ⟨by decide, by decide, calc_result_single_point_raises [0] [5] 21 (-1) (by decide) (by decide)⟩

/- ---------------------------------------------------------------------------
Master calibration matching: `match_cals_by_min` (summit_picarro.py:398-420)
and the matching loop of `create_mastercals` (picarro_main_loop.py:195-238).
--------------------------------------------------------------------------- -/

/-- Modelled from the spec: `find_closest_date` lives in `summit_core`, which
is not under src.  Per §4.4 the matcher performs a nearest-time search, so
this returns the candidate date with minimum absolute difference from the
target (the first such candidate on a tie, which §9 leaves unspecified)
together with the signed difference `candidate - target`. -/
def find_closest_date (target : Int) (dates : List Int) : Option (Int × Int) :=
  match dates with
  | [] => none
  | d :: ds =>
    some (ds.foldl
      (fun best d2 => if |d2 - target| < |best.2| then (d2, d2 - target) else best)
      (d, d - target))

/-- Modelled from the spec: `search_for_attr_value` lives in `summit_core`,
which is not under src; the call site uses it to recover the CalEvent whose
`date` attribute equals the matched date, so it is the first list element
with that date. -/
def search_for_attr_date (cals : List CalEv) (d : Int) : Option CalEv :=
  cals.find? (fun c => c.date == d)

/-- Embedding of `match_cals_by_min`: returns `None` for an empty candidate
list; otherwise runs the nearest-time search and then the source's guard
`if not match or not diff: return None` — `match` is a datetime and always
truthy, but `not diff` is true for a zero timedelta, so an exact-time
candidate is rejected; finally the candidate is returned only when
`abs(diff) < timedelta(minutes=minutes)` holds strictly. -/
def match_cals_by_min (cal : CalEv) (cals : List CalEv) (minutes : Int) : Option CalEv :=
  let cal_dates := cals.map (fun c => c.date)
  if cal_dates = [] then none
  else
    match find_closest_date cal.date cal_dates with
    | none => none
    | some (m, diff) =>
      if diff = 0 then none
      else if |diff| < minutes * 60 then search_for_attr_date cals m
      else none

/-- Embedding of the matching loop of `create_mastercals`: for each low event
in order, search the high pool with a 5-minute tolerance, then search the mid
pool from the matched high with the same tolerance; a triple is recorded when
both searches succeed.  The high and mid pools are the same lists for every
low event — the source never removes a matched event from them within a
cycle. -/
def create_mastercals_cycle : List CalEv → List CalEv → List CalEv → List Triple
  | [], _, _ => []
  | low :: rest, highs, mids =>
    match match_cals_by_min low highs 5 with
    | none => create_mastercals_cycle rest highs mids
    | some high =>
      match match_cals_by_min high mids 5 with
      | none => create_mastercals_cycle rest highs mids
      | some mid => ⟨low, high, mid⟩ :: create_mastercals_cycle rest highs mids

/-- The ids of all events linked by the given triples (each formed triple sets
`mastercal_id` on its three subcals when committed). -/
def linkedIds (ts : List Triple) : List Nat :=
  ts.flatMap (fun t => [t.low.id, t.high.id, t.mid.id])

/-- The events of a pool still satisfying `CalEvent.mastercal_id == None`
after the given triples have been committed. -/
def unlinked_after (ts : List Triple) (es : List CalEv) : List CalEv :=
  es.filter (fun e => !((linkedIds ts).contains e.id))

/-- Two consecutive matching cycles over the same store: the second cycle
re-queries the store, seeing only the events not linked by the first
cycle's triples. -/
def run_twice (lows highs mids : List CalEv) : List Triple × List Triple :=
  let t1 := create_mastercals_cycle lows highs mids
  (t1, create_mastercals_cycle (unlinked_after t1 lows) (unlinked_after t1 highs)
    (unlinked_after t1 mids))

/-- A successful `match_cals_by_min` returns an element of the candidate
pool. -/
theorem match_cals_by_min_mem {cal : CalEv} {cals : List CalEv} {minutes : Int}
    {e : CalEv} (h : match_cals_by_min cal cals minutes = some e) : e ∈ cals := by
  simp only [match_cals_by_min] at h
  split at h
  · exact absurd h (by simp)
  · split at h
    · exact absurd h (by simp)
    · rename_i m diff heq
      split at h
      · exact absurd h (by simp)
      · split at h
        · exact List.mem_of_find?_eq_some h
        · exact absurd h (by simp)

/-- Each triple produced by a matching cycle draws its low, high and mid
events from the corresponding pools. -/
theorem mem_create_mastercals_cycle {t : Triple} :
    ∀ {lows highs mids : List CalEv}, t ∈ create_mastercals_cycle lows highs mids →
      t.low ∈ lows ∧ t.high ∈ highs ∧ t.mid ∈ mids := by
  intro lows
  induction lows with
  | nil => intro highs mids h; simp [create_mastercals_cycle] at h
  | cons low rest ih =>
    intro highs mids h
    cases hhigh : match_cals_by_min low highs 5 with
    | none =>
      simp only [create_mastercals_cycle, hhigh] at h
      have := ih h
      exact ⟨List.mem_cons_of_mem _ this.1, this.2⟩
    | some high =>
      cases hmid : match_cals_by_min high mids 5 with
      | none =>
        simp only [create_mastercals_cycle, hhigh, hmid] at h
        have := ih h
        exact ⟨List.mem_cons_of_mem _ this.1, this.2⟩
      | some mid =>
        simp only [create_mastercals_cycle, hhigh, hmid] at h
        rcases List.mem_cons.mp h with heq | hmem
        · subst heq
          exact ⟨List.mem_cons_self _ _,
            match_cals_by_min_mem hhigh, match_cals_by_min_mem hmid⟩
        · have := ih hmem
          exact ⟨List.mem_cons_of_mem _ this.1, this.2⟩

/-- The low events of a cycle's triples form a sublist of the low pool: each
low event of the pool is examined exactly once. -/
theorem cycle_lows_sublist :
    ∀ (lows highs mids : List CalEv),
      List.Sublist ((create_mastercals_cycle lows highs mids).map (fun t => t.low)) lows := by
  intro lows
  induction lows with
  | nil => intro highs mids; simp [create_mastercals_cycle]
  | cons low rest ih =>
    intro highs mids
    cases hhigh : match_cals_by_min low highs 5 with
    | none =>
      simp only [create_mastercals_cycle, hhigh]
      exact (ih highs mids).cons _
    | some high =>
      cases hmid : match_cals_by_min high mids 5 with
      | none =>
        simp only [create_mastercals_cycle, hhigh, hmid]
        exact (ih highs mids).cons _
      | some mid =>
        simp only [create_mastercals_cycle, hhigh, hmid, List.map_cons]
        exact (ih highs mids).cons₂ low

/-- An event of a pool that survives `unlinked_after` is not linked by the
given triples. -/
theorem mem_unlinked_after {ts : List Triple} {es : List CalEv} {e : CalEv}
    (h : e ∈ unlinked_after ts es) : e.id ∉ linkedIds ts := by
  simpa using (List.mem_filter.mp h).2

/-- C4: the claim fails on the code.  A sole high candidate at exactly the
same timestamp as the low event (minimum difference 0, well inside the
5-minute tolerance) is rejected, because `if not match or not diff` treats
the zero timedelta as falsy; and a candidate at exactly 5 minutes is also
rejected, because the comparison `abs(diff) < timedelta(minutes=5)` is
strict. -/
theorem match_cals_skips_within_tolerance :
    match_cals_by_min ⟨1, 1000, 1000, "low_std", none⟩
      [⟨2, 1000, 1000, "high_std", none⟩] 5 = none ∧
    match_cals_by_min ⟨3, 0, 0, "low_std", none⟩
      [⟨4, 300, 300, "high_std", none⟩] 5 = none := by
  decide

/-- The low pool of the counterexample where one high and one mid event are
shared by two triples of the same cycle. -/
def lowsA : List CalEv :=
  [⟨1, 0, 0, "low_std", none⟩, ⟨2, 120, 120, "low_std", none⟩]

/-- The single-element high pool of the sharing counterexample. -/
def highsA : List CalEv := [⟨3, 60, 60, "high_std", none⟩]

/-- The single-element mid pool of the sharing counterexample. -/
def midsA : List CalEv := [⟨4, 90, 90, "mid_std", none⟩]

/-- The low pool of the counterexample where a second matching run over the
same store produces a new MasterCalibration. -/
def lowsB : List CalEv :=
  [⟨1, 60, 60, "low_std", none⟩, ⟨2, 120, 120, "low_std", none⟩]

/-- The high pool of the second-run counterexample; the first high shares its
timestamp with the second low. -/
def highsB : List CalEv :=
  [⟨3, 120, 120, "high_std", none⟩, ⟨4, 180, 180, "high_std", none⟩]

/-- The mid pool of the second-run counterexample. -/
def midsB : List CalEv :=
  [⟨5, 150, 150, "mid_std", none⟩, ⟨6, 200, 200, "mid_std", none⟩]

/-- C5 counterexample: with two low events around one high and one mid event,
a single matching cycle forms two triples that share the same high event
(id 3) and the same mid event (id 4) — the pools are never updated within a
cycle; and on the second pools a second run over the same store forms a new
MasterCalibration (the first run skipped the low at 120 s because its nearest
high had a zero time difference, and linking freed the pools up). -/
theorem mastercal_reuse_counterexample :
    create_mastercals_cycle lowsA highsA midsA =
      [⟨⟨1, 0, 0, "low_std", none⟩, ⟨3, 60, 60, "high_std", none⟩,
          ⟨4, 90, 90, "mid_std", none⟩⟩,
        ⟨⟨2, 120, 120, "low_std", none⟩, ⟨3, 60, 60, "high_std", none⟩,
          ⟨4, 90, 90, "mid_std", none⟩⟩] ∧
    (run_twice lowsB highsB midsB).2 ≠ [] := by
  decide

/-- C5 amended: each low event is examined once per cycle, so the low slots of
one cycle's triples are pairwise distinct; and the second cycle only queries
events not linked by the first cycle's triples, so no event of a first-cycle
triple ever reappears in a second-cycle triple. -/
theorem mastercal_linking_cycle_safety (lows highs mids : List CalEv)
    (hnd : (lows.map (fun e => e.id)).Nodup) :
    ((create_mastercals_cycle lows highs mids).map (fun t => t.low.id)).Nodup ∧
    ∀ t ∈ (run_twice lows highs mids).2,
      t.low.id ∉ linkedIds (create_mastercals_cycle lows highs mids) ∧
      t.high.id ∉ linkedIds (create_mastercals_cycle lows highs mids) ∧
      t.mid.id ∉ linkedIds (create_mastercals_cycle lows highs mids) := by
  constructor
  · have hsub := (cycle_lows_sublist lows highs mids).map (fun e => e.id)
    rw [List.map_map] at hsub
    exact hnd.sublist hsub
  · intro t ht
    simp only [run_twice] at ht
    have hm := mem_create_mastercals_cycle ht
    exact ⟨mem_unlinked_after hm.1, mem_unlinked_after hm.2.1,
      mem_unlinked_after hm.2.2⟩

/-- Witness for C5's amended theorem at the concrete second-run pools. -/
theorem mastercal_linking_cycle_safety_witness :
    (lowsB.map (fun e => e.id)).Nodup ∧
    (((create_mastercals_cycle lowsB highsB midsB).map (fun t => t.low.id)).Nodup ∧
      ∀ t ∈ (run_twice lowsB highsB midsB).2,
        t.low.id ∉ linkedIds (create_mastercals_cycle lowsB highsB midsB) ∧
        t.high.id ∉ linkedIds (create_mastercals_cycle lowsB highsB midsB) ∧
        t.mid.id ∉ linkedIds (create_mastercals_cycle lowsB highsB midsB)) :=
  ⟨by decide, mastercal_linking_cycle_safety lowsB highsB midsB (by decide)⟩

/- ---------------------------------------------------------------------------
Discard rule: the duration check of `find_cal_events`
(picarro_main_loop.py:175-179) and the pool queries of `create_mastercals`
(picarro_main_loop.py:209-220).
--------------------------------------------------------------------------- -/

/-- Embedding of the duration check of `find_cal_events`: an event whose span
`ev.date - ev.dates[0]` is under 90 seconds has its standard category
overwritten with the sentinel `'dump'`. -/
def tag_event (e : CalEv) : CalEv :=
  if e.date - e.date_first < 90 then {e with standard_used := "dump"} else e

/-- Embedding of the pool queries of `create_mastercals`: the events with
`mastercal_id == None` and the requested `standard_used` category. -/
def selectPool (evs : List CalEv) (std : String) : List CalEv :=
  evs.filter (fun e => e.mastercal_id == none && e.standard_used == std)

/-- C7: a candidate event (whose category is one of the standards, hence not
already the sentinel) is discard-tagged exactly when its span is strictly
under 90 seconds; and since the Matcher's pools only admit the categories
`low_std`, `high_std` and `mid_std`, no discard-tagged event ever appears in
any slot of any triple. -/
theorem discard_rule (e : CalEv) (evs : List CalEv) (t : Triple)
    (he : e.standard_used ≠ "dump")
    (ht : t ∈ create_mastercals_cycle (selectPool evs "low_std")
      (selectPool evs "high_std") (selectPool evs "mid_std")) :
    ((tag_event e).standard_used = "dump" ↔ e.date - e.date_first < 90) ∧
    t.low.standard_used ≠ "dump" ∧ t.high.standard_used ≠ "dump" ∧
    t.mid.standard_used ≠ "dump" := by
  have hm := mem_create_mastercals_cycle ht
  have hpool : ∀ {x : CalEv} {std : String}, x ∈ selectPool evs std →
      x.standard_used = std := by
    intro x std hx
    have := (List.mem_filter.mp hx).2
    simp only [Bool.and_eq_true, beq_iff_eq] at this
    exact this.2
  refine ⟨?_, ?_, ?_, ?_⟩
  · unfold tag_event
    by_cases hlt : e.date - e.date_first < 90
    · simp [hlt]
    · simp [hlt, he]
  · rw [hpool hm.1]; decide
  · rw [hpool hm.2.1]; decide
  · rw [hpool hm.2.2]; decide

/-- A 50-second low-standard candidate event, used as the discard-tagged
example of the C7 witness. -/
def shortEv : CalEv := ⟨7, 100, 150, "low_std", none⟩

/-- Three well-formed events (spans of 100, 110 and 120 seconds) forming one
triple, used by the C7 witness. -/
def evsC : List CalEv :=
  [⟨8, 100, 200, "low_std", none⟩, ⟨9, 150, 260, "high_std", none⟩,
    ⟨10, 170, 290, "mid_std", none⟩]

/-- The triple the matcher forms from `evsC`. -/
def tripleC : Triple :=
  ⟨⟨8, 100, 200, "low_std", none⟩, ⟨9, 150, 260, "high_std", none⟩,
    ⟨10, 170, 290, "mid_std", none⟩⟩

/-- Witness for C7 at a concrete input: a 50-second low-standard candidate is
discard-tagged, and the triple formed from the events of `evsC` is free of the
sentinel category. -/
theorem discard_rule_witness :
    (shortEv.standard_used ≠ "dump" ∧
      tripleC ∈ create_mastercals_cycle (selectPool evsC "low_std")
        (selectPool evsC "high_std") (selectPool evsC "mid_std")) ∧
    (((tag_event shortEv).standard_used = "dump" ↔
        shortEv.date - shortEv.date_first < 90) ∧
      tripleC.low.standard_used ≠ "dump" ∧ tripleC.high.standard_used ≠ "dump" ∧
      tripleC.mid.standard_used ≠ "dump") := by
  refine ⟨⟨by decide, by decide⟩, ?_⟩
  exact discard_rule shortEv evsC tripleC (by decide) (by decide)

/- ---------------------------------------------------------------------------
Curve fitting: `calc_two_pt_curve` (summit_picarro.py:423-433) and the
per-compound body of `MasterCal.create_curve` (summit_picarro.py:228-254).
--------------------------------------------------------------------------- -/

/-- The `Point` namedtuple: `x` is the certified concentration, `y` the
measured mean. -/
structure Point where
  x : ℚ
  y : ℚ
deriving DecidableEq

/-- The `Curve` namedtuple: slope `m` and `intercept`. -/
structure Curve where
  m : ℚ
  intercept : ℚ
deriving DecidableEq

/-- The three per-compound values `create_curve` persists on the MasterCal:
`slope`, `intercept` and `middle_offset`. -/
structure FitResult where
  slope : ℚ
  intercept : ℚ
  middle_offset : ℚ
deriving DecidableEq

/-- Embedding of `calc_two_pt_curve`: `m = (high.y - low.y) / (high.x -
low.x)` and `intercept = low.y - m * low.x`.  Python's float division raises
`ZeroDivisionError` when the denominator is exactly zero, which the embedding
makes an explicit error. -/
def calc_two_pt_curve (low high : Point) : Except String Curve :=
  if high.x - low.x = 0 then Except.error "ZeroDivisionError: float division by zero"
  else
    let m := (high.y - low.y) / (high.x - low.x)
    Except.ok ⟨m, low.y - m * low.x⟩

/-- Embedding of one compound's step of `MasterCal.create_curve`: the curve is
fitted through `(certified-low, measured-low)` and `(certified-high,
measured-high)`, and the middle offset is `mid.y - (m * mid.x + intercept)`. -/
def create_curve_cpd (xl xm xh yl ym yh : ℚ) : Except String FitResult :=
  match calc_two_pt_curve ⟨xl, yl⟩ ⟨xh, yh⟩ with
  | Except.error e => Except.error e
  | Except.ok curve =>
    Except.ok ⟨curve.m, curve.intercept, ym - (curve.m * xm + curve.intercept)⟩

/-- C6: for distinct certified low/high concentrations the persisted values
are exactly slope = Δmeasured / Δcertified, intercept = measured-low − slope ×
certified-low, and middle offset = measured-mid − (slope × certified-mid +
intercept); and evaluating the fitted line at the certified low and high
concentrations reproduces the measured means exactly. -/
theorem curve_fit_formulas (xl xm xh yl ym yh : ℚ) (hx : xl ≠ xh) :
    ∃ fr : FitResult, create_curve_cpd xl xm xh yl ym yh = Except.ok fr ∧
      fr.slope = (yh - yl) / (xh - xl) ∧
      fr.intercept = yl - (yh - yl) / (xh - xl) * xl ∧
      fr.middle_offset = ym - (fr.slope * xm + fr.intercept) ∧
      fr.slope * xl + fr.intercept = yl ∧
      fr.slope * xh + fr.intercept = yh := by
  have hne : xh - xl ≠ 0 := sub_ne_zero.mpr (Ne.symm hx)
  refine ⟨⟨(yh - yl) / (xh - xl), yl - (yh - yl) / (xh - xl) * xl,
    ym - ((yh - yl) / (xh - xl) * xm + (yl - (yh - yl) / (xh - xl) * xl))⟩,
    ?_, rfl, rfl, rfl, by ring, ?_⟩
  · simp only [create_curve_cpd, calc_two_pt_curve, hne, if_neg, if_false]
  · field_simp
    ring

/-- Witness for C6 at the concrete input (certified 1, 2, 3; measured 10, 20,
30). -/
theorem curve_fit_formulas_witness :
    (1 : ℚ) ≠ 3 ∧
    (∃ fr : FitResult, create_curve_cpd 1 2 3 10 20 30 = Except.ok fr ∧
      fr.slope = (30 - 10) / (3 - 1) ∧
      fr.intercept = 10 - (30 - 10) / (3 - 1) * 1 ∧
      fr.middle_offset = 20 - (fr.slope * 2 + fr.intercept) ∧
      fr.slope * 1 + fr.intercept = 10 ∧
      fr.slope * 3 + fr.intercept = 30) :=
  ⟨by norm_num, curve_fit_formulas 1 2 3 10 20 30 (by norm_num)⟩

/-- C8: when the two certified concentrations coincide, `calc_two_pt_curve`
fails with the explicit division-by-zero error instead of producing a
curve. -/
theorem degenerate_curve_errors (low high : Point) (h : low.x = high.x) :
    calc_two_pt_curve low high =
      Except.error "ZeroDivisionError: float division by zero" := by
  simp [calc_two_pt_curve, h]

/-- Witness for C8 at a concrete input: two points with the same certified
concentration 1. -/
theorem degenerate_curve_errors_witness :
    Point.x ⟨1, 2⟩ = Point.x ⟨1, 5⟩ ∧
    calc_two_pt_curve ⟨1, 2⟩ ⟨1, 5⟩ =
      Except.error "ZeroDivisionError: float division by zero" :=
  ⟨rfl, degenerate_curve_errors ⟨1, 2⟩ ⟨1, 5⟩ rfl⟩

/- ---------------------------------------------------------------------------
Post-calibration flush filter: `filter_postcal_data`
(summit_picarro.py:436-455).
--------------------------------------------------------------------------- -/

/-- Embedding of `filter_postcal_data`: every Datum with
`last_cal_date < date <= last_cal_date + 1 minute` — the query has no valve
condition — gets `instrument_status = 999`; all other Datums are returned
unchanged. -/
def filter_postcal_data (last_cal_date : Int) (data : List Datum) : List Datum :=
  data.map (fun d =>
    if last_cal_date < d.date ∧ d.date ≤ last_cal_date + 60 then
      {d with instrument_status := 999}
    else d)

/-- C3: the claim fails on the code.  For an event ending at 0 s, a
low-standard Datum (valve position 2) at 30 s is flagged with the 999
sentinel even though it is not ambient; an ambient Datum at exactly 60 s is
flagged although it is not strictly between the end and one minute after it;
an ambient Datum at 61 s is untouched. -/
theorem flush_filter_ignores_valve_position :
    filter_postcal_data 0 [⟨30, 2, 963⟩] = [⟨30, 2, 999⟩] ∧
    filter_postcal_data 0 [⟨60, 1, 963⟩] = [⟨60, 1, 999⟩] ∧
    filter_postcal_data 0 [⟨61, 1, 963⟩] = [⟨61, 1, 963⟩] := by
  decide

/- ---------------------------------------------------------------------------
Ingestion deduplication: the row-adding loop of `check_load_new_data`
(picarro_main_loop.py:58-127).
--------------------------------------------------------------------------- -/

/-- Embedding of one ingestion cycle's deduplication: `db_dates` is the list
of persisted timestamps queried once at the start of the cycle, and every
parsed row of every file to process is added exactly when its timestamp is
not in that list — the list is never refreshed while files are processed.
The returned list holds the timestamps of the accepted rows in processing
order. -/
def ingest_cycle (db_dates : List Int) (files : List (List Int)) : List Int :=
  (files.map (fun rows => rows.filter (fun d => !(db_dates.contains d)))).flatten

/-- C9 counterexample: two files processed in the same cycle each holding a
row with timestamp 10, against an empty store.  Both rows are accepted —
`db_dates` is stale after the first file commits — so two accepted rows share
a timestamp, contradicting the claimed pairwise distinctness. -/
theorem ingest_duplicate_timestamps :
    ingest_cycle [] [[10], [10]] = [10, 10] ∧
    ¬ (ingest_cycle [] [[10], [10]]).Nodup := by
  decide

/-- C9 amended: a row whose timestamp is already in the store as of the start
of the cycle is never accepted; in particular re-ingesting a file all of
whose rows are already committed accepts nothing. -/
theorem ingest_skips_known_timestamps (db_dates : List Int)
    (files : List (List Int)) (d : Int) (hd : d ∈ ingest_cycle db_dates files) :
    d ∉ db_dates := by
  simp only [ingest_cycle, List.mem_flatten, List.mem_map] at hd
  obtain ⟨l, ⟨rows, hrows, rfl⟩, hdl⟩ := hd
  simpa using (List.mem_filter.mp hdl).2

/-- Witness for C9's amended theorem: a store holding timestamp 5 and one file
with rows 5 and 6; the accepted row 6 is not in the store. -/
theorem ingest_skips_known_timestamps_witness :
    6 ∈ ingest_cycle [5] [[5, 6]] ∧ (6 : Int) ∉ ([5] : List Int) :=
  ⟨by decide, ingest_skips_known_timestamps [5] [[5, 6]] 6 (by decide)⟩

end SummitPicarro
